import Mathlib

/-! Lazy self-references (`LazyWrap.hpp`) and the byte utilities (`SwapEndian.hpp`,
`UseBytesAs.hpp`).

The byte utilities `utils::swapEndian` and `utils::useBytesAs` act on object
representations, modelled as lists of bytes; the value of an unsigned integer is tied to
its representation by the byte order of the platform, a parameter (`Endian`).

A shallow embedding of `utils::lazy`:

* `LazyWrap<Type>` holds a `std::function<Type()>` and calls it on every `getLazybones()`.
  A producer is a state transformer `σ → ρ × σ`: it reads and writes the program state `σ`
  and yields a result `ρ` (a value, or the record of an exception).
* `enable_lazy_from_this<Type>` is the mixin: its constructor installs the `[this]` lambda.
  Its two accessors `lazy_from_this()` and `lazy_from_this<BaseType>()` are ill-formed
  when instantiated; they are recorded as C++ text, with the types their expressions have.
* `lazy_cast<Derive, Base>` wraps a source wrapper in a new producer.

`std::shared_ptr`, `std::make_shared` and `std::enable_shared_from_this` belong to the C++17
standard library; they are modelled by `SharedPtr`, `make_shared` and `shared_from_this`.
-/

namespace utils.lazy

/-! ## `LazyWrap<Type>` -/

/-- The class `LazyWrap<Type>`: one data member, the stored `std::function<Type()>`.
`σ` is the program state a producer may read and write, `ρ` what one call yields. -/
structure LazyWrap (σ ρ : Type) where
  /-- The member `std::function<Type()> _lazybonesGetter`. -/
  _lazybonesGetter : σ → ρ × σ

/-- The constructor `LazyWrap(std::function<Type()> getter) : _lazybonesGetter(getter) {}`,
as a statement executed in program state `s`: it stores `getter` and has an empty body. -/
def LazyWrap.construct {σ ρ : Type} (getter : σ → ρ × σ) (s : σ) : LazyWrap σ ρ × σ :=
  (LazyWrap.mk getter, s)

/-- The method `Type getLazybones() const { return _lazybonesGetter(); }`. -/
def LazyWrap.getLazybones {σ ρ : Type} (w : LazyWrap σ ρ) (s : σ) : ρ × σ :=
  w._lazybonesGetter s

/-- The program `getLazybones(); ...; getLazybones();` with `n` calls on one wrapper:
the results in call order and the final state. -/
def callN {σ ρ : Type} (w : LazyWrap σ ρ) : Nat → σ → List ρ × σ
  | 0, s => ([], s)
  | n + 1, s =>
    let r := w.getLazybones s
    let rest := callN w n r.2
    (r.1 :: rest.1, rest.2)

/-- Ghost instrumentation of a producer: the state is paired with an invocation counter,
and every invocation of `f` bumps the counter. -/
def counted {σ ρ : Type} (f : σ → ρ × σ) : σ × Nat → ρ × (σ × Nat) :=
  fun s => ((f s.1).1, ((f s.1).2, s.2 + 1))

/-- State in which the `i`-th invocation (counting from 0) of `f` starts, when `f` is
invoked over and over from `s`. -/
def stateBefore {σ ρ : Type} (f : σ → ρ × σ) (i : Nat) (s : σ) : σ :=
  (fun t => (f t).2)^[i] s

/-- Result of the `i`-th invocation (counting from 0) of `f` started from `s`. -/
def nthResult {σ ρ : Type} (f : σ → ρ × σ) (i : Nat) (s : σ) : ρ :=
  (f (stateBefore f i s)).1

/-! ## The shared-ownership runtime (C++17 standard library) -/

/-- Identity (address) of an object that may be owned through `std::shared_ptr`. -/
abbrev ObjId := Nat

/-- Name of a class. -/
abbrev ClassId := Nat

/-- Address of a heap-allocated `LazyWrap`. -/
abbrev Addr := Nat

/-- A `std::shared_ptr<T>` value: the static pointee type `T` and the stored pointer
(`none` for the empty pointer `{}`). -/
structure SharedPtr where
  pointee : ClassId
  target : Option ObjId
  deriving DecidableEq, Repr

/-- The value `std::shared_ptr<T>{}` written `return {};`. -/
def SharedPtr.null (T : ClassId) : SharedPtr := ⟨T, none⟩

/-- Conversion `explicit operator bool` of `std::shared_ptr`. -/
def SharedPtr.toBool (p : SharedPtr) : Bool := p.target.isSome

/-- The cast `std::static_pointer_cast<Base>(p)`: same stored object, static type `Base`. -/
def static_pointer_cast (Base : ClassId) (p : SharedPtr) : SharedPtr := ⟨Base, p.target⟩

/-- What evaluating an expression yields: a value, the exception `std::bad_weak_ptr`
propagating out of it, or undefined behaviour (a member access through a null pointer). -/
inductive Outcome (α : Type) where
  | value (a : α)
  | bad_weak_ptr
  | undefined
  deriving DecidableEq, Repr

/-- A complete object: its identity and the classes it is an instance of (its most-derived
class and all public unambiguous bases), which is what `dynamic_cast` consults. -/
structure Object where
  addr : ObjId
  classes : List ClassId
  deriving DecidableEq, Repr

/-- The expression `dynamic_cast<T*>(this)` on a sub-object of `o`: the object viewed as `T`
when it is a `T`, the null pointer otherwise. -/
def dynamic_cast (T : ClassId) (o : Object) : Option ObjId :=
  if T ∈ o.classes then some o.addr else none

/-- The state producers run in: `managed` lists the objects currently under shared
ownership, that is, whose `enable_shared_from_this` back-reference is live; `user` is any
further program state a producer may read or write. -/
structure Runtime (υ : Type) where
  managed : List ObjId
  user : υ

/-- The member `std::enable_shared_from_this<T>::shared_from_this()` called on object `o`
(C++17): an owning pointer to `o` when `o` is under shared ownership, otherwise the
exception `std::bad_weak_ptr`. -/
def shared_from_this {υ : Type} (T : ClassId) (o : ObjId) (rt : Runtime υ) :
    Outcome SharedPtr :=
  if o ∈ rt.managed then Outcome.value ⟨T, some o⟩ else Outcome.bad_weak_ptr

/-- A `std::function<std::shared_ptr<T>()>`. -/
abbrev Producer (υ : Type) := Runtime υ → Outcome SharedPtr × Runtime υ

/-- A non-null `std::shared_ptr<LazyWrap<std::shared_ptr<T>>>`: the address of the
allocation and the (immutable) wrapper stored there. -/
structure Handle (υ : Type) where
  addr : Addr
  obj : LazyWrap (Runtime υ) (Outcome SharedPtr)

/-- A `std::shared_ptr<LazyWrap<std::shared_ptr<T>>>`, possibly null. -/
abbrev WrapPtr (υ : Type) := Option (Handle υ)

/-- The expression `p->getLazybones()`: through a null `p` it is undefined behaviour. -/
def deref_getLazybones {υ : Type} (p : WrapPtr υ) (rt : Runtime υ) :
    Outcome SharedPtr × Runtime υ :=
  match p with
  | none => (Outcome.undefined, rt)
  | some h => h.obj.getLazybones rt

/-- Runtime state together with the allocator: `next` is the first address never handed
out by `make_shared`. -/
structure World (υ : Type) where
  rt : Runtime υ
  next : Addr

/-- The call `std::make_shared<LazyWrap<...>>(getter)`: runs the `LazyWrap` constructor and
returns a handle to a fresh allocation. -/
def make_shared {υ : Type} (getter : Producer υ) (w : World υ) : WrapPtr υ × World υ :=
  let c := LazyWrap.construct getter w.rt
  (some ⟨w.next, c.1⟩, ⟨c.2, w.next + 1⟩)

/-! ## `lazy_cast` (overload on `std::shared_ptr<LazyWrap<std::shared_ptr<Derive>>>`) -/

/-- The lambda `[derive]() -> std::shared_ptr<Base>` built by `lazy_cast`:

    if (not derive or not derive->getLazybones())
        return {};
    return std::static_pointer_cast<Base>(derive->getLazybones()->shared_from_this());

The source wrapper is evaluated once for the test and once more for the value; an
exception of either evaluation, or of `shared_from_this()`, propagates. -/
def lazy_cast_lambda {υ : Type} (Derive Base : ClassId) (derive : WrapPtr υ) : Producer υ :=
  fun rt =>
    match derive with
    | none => (Outcome.value (SharedPtr.null Base), rt)
    | some _ =>
      match deref_getLazybones derive rt with
      | (Outcome.bad_weak_ptr, rt1) => (Outcome.bad_weak_ptr, rt1)
      | (Outcome.undefined, rt1) => (Outcome.undefined, rt1)
      | (Outcome.value p, rt1) =>
        if !p.toBool then (Outcome.value (SharedPtr.null Base), rt1)
        else
          match deref_getLazybones derive rt1 with
          | (Outcome.bad_weak_ptr, rt2) => (Outcome.bad_weak_ptr, rt2)
          | (Outcome.undefined, rt2) => (Outcome.undefined, rt2)
          | (Outcome.value q, rt2) =>
            match q.target with
            | none => (Outcome.undefined, rt2)
            | some o =>
              match shared_from_this Derive o rt2 with
              | Outcome.value r => (Outcome.value (static_pointer_cast Base r), rt2)
              | Outcome.bad_weak_ptr => (Outcome.bad_weak_ptr, rt2)
              | Outcome.undefined => (Outcome.undefined, rt2)

/-- The function `lazy_cast<Derive, Base>(derive)`:

    if (not derive) return {};
    return std::make_shared<LazyWrap<std::shared_ptr<Base>>>([derive]() {...});

The constraint `std::is_base_of_v<Base, Derive>` is checked at compile time and leaves no
trace at run time. -/
def lazy_cast {υ : Type} (Derive Base : ClassId) (derive : WrapPtr υ) (w : World υ) :
    WrapPtr υ × World υ :=
  match derive with
  | none => (none, w)
  | some _ => make_shared (lazy_cast_lambda Derive Base derive) w

/-! ## `enable_lazy_from_this<Type>` -/

/-- The data of an `enable_lazy_from_this<Type>` sub-object: the complete object whose
constructor ran (what the captured `this` designates), the template argument `Type`, and
the two members: `_lazybonesGetter`, a `std::function<std::shared_ptr<Type>()>`, and
`_cachedLazyWrap`, declared `_TypedLazyWrapPtr<Type>`, that is
`std::shared_ptr<LazyWrap<Type>>`: a possibly null handle to a wrapper whose producer
returns a `Type` by value (`V` stands for the values of `Type`). -/
structure enable_lazy_from_this (υ V : Type) where
  self : Object
  T : ClassId
  _lazybonesGetter : Producer υ
  _cachedLazyWrap : Option (Addr × LazyWrap (Runtime υ) (Outcome V))

/-- The lambda `[this]() -> _ValuePtr` installed by the constructor:

    const auto __this = dynamic_cast<Type*>(this);
    return __this->shared_from_this();

When the down-cast fails `__this` is null and the member call is undefined behaviour. -/
def enable_lazy_from_this.lambda {υ : Type} (self : Object) (T : ClassId) : Producer υ :=
  fun rt =>
    match dynamic_cast T self with
    | none => (Outcome.undefined, rt)
    | some o => (shared_from_this T o rt, rt)

/-- The constructor `enable_lazy_from_this()`: installs the lambda; the cache slot is
default-initialised to null. -/
def enable_lazy_from_this.construct {υ V : Type} (self : Object) (T : ClassId) :
    enable_lazy_from_this υ V :=
  { self := self, T := T,
    _lazybonesGetter := enable_lazy_from_this.lambda self T,
    _cachedLazyWrap := none }

/-! ## A concrete hierarchy, used to exercise the results -/

/-- Class name `Base` of the example hierarchy. -/
def exBase : ClassId := 1

/-- Class name `Derived` of the example hierarchy, `Derived : Base`. -/
def exDerived : ClassId := 2

/-- A world in which the example object is under shared ownership. -/
def exOwned : World Unit := ⟨⟨[7], ()⟩, 0⟩

/-- A world in which no object is under shared ownership. -/
def exUnowned : World Unit := ⟨⟨[], ()⟩, 0⟩

/-- A source wrapper at address 0 whose producer is deterministic: every call returns a
present `std::shared_ptr<Derived>` to the object at address 7 and changes nothing. -/
def exSource : Handle Unit :=
  ⟨0, LazyWrap.mk (fun rt => (Outcome.value ⟨exDerived, some 7⟩, rt))⟩

/-- Specified result of a cast wrapper, the upcast of the source result: the `Base`-typed
pointer to the same object for a returned pointer (the empty `Base` pointer for the empty
one), and the same failure for a failure. -/
def spec_upcast (Base : ClassId) : Outcome SharedPtr → Outcome SharedPtr
  | Outcome.value p => Outcome.value (static_pointer_cast Base p)
  | Outcome.bad_weak_ptr => Outcome.bad_weak_ptr
  | Outcome.undefined => Outcome.undefined

/-! ## Instrumented sources and chains of casts -/

/-- An instrumented runtime state without its invocation counter. -/
def Runtime.forget {υ : Type} (rt : Runtime (υ × Nat)) : Runtime υ :=
  ⟨rt.managed, rt.user.1⟩

/-- Ghost instrumentation of a pointer producer: the user state is paired with an
invocation counter, `f` runs on the rest of the state, and every invocation bumps the
counter. -/
def ticked {υ : Type} (f : Producer υ) : Producer (υ × Nat) :=
  fun rt =>
    let r := f rt.forget
    (r.1, ⟨r.2.managed, (r.2.user, rt.user.2 + 1)⟩)

/-- The wrapper obtained by applying `lazy_cast` `k` times in a chain over `src`; the
cast number `i` (from 0) is `lazy_cast<tys i, tys (i + 1)>`. -/
def cast_chain {υ : Type} (tys : Nat → ClassId) :
    Nat → WrapPtr υ → World υ → WrapPtr υ × World υ
  | 0, src, w => (src, w)
  | k + 1, src, w =>
    let r := cast_chain tys k src w
    lazy_cast (tys k) (tys (k + 1)) r.1 r.2

/-- A source wrapper at address 0 whose producer depends on the state: while the flag in
the user state is set it returns a present pointer to the object at address 7, otherwise
the empty pointer, and every call flips the flag. -/
def exFlip : Handle Bool :=
  ⟨0, LazyWrap.mk (fun rt =>
    (if rt.user then Outcome.value ⟨exDerived, some 7⟩
      else Outcome.value (SharedPtr.null exDerived),
     { rt with user := !rt.user }))⟩

/-- A runtime state with the object at address 7 under shared ownership and the flag
set. -/
def exFlipState : Runtime Bool := ⟨[7], true⟩

/-- An instrumented runtime state with no object under shared ownership and the
invocation counter at 0. -/
def exCountUnowned : Runtime (Unit × Nat) := ⟨[], ((), 0)⟩

/-- An instrumented runtime state with the object at address 7 under shared ownership and
the invocation counter at 0. -/
def exCountOwned : Runtime (Unit × Nat) := ⟨[7], ((), 0)⟩

/-- A producer that always returns a present pointer to the object at address 7 and
changes nothing. -/
def exAlwaysPresent : Producer Unit :=
  fun rt => (Outcome.value ⟨exDerived, some 7⟩, rt)

/-- A producer that always returns the empty pointer and changes nothing. -/
def exAlwaysAbsent : Producer Unit :=
  fun rt => (Outcome.value (SharedPtr.null exDerived), rt)

/-- The class chain `Derived, Base, Base, ...` used for chains of casts in the example. -/
def exTys : Nat → ClassId
  | 0 => exDerived
  | _ + 1 => exBase

/-! ## The three `lazy_cast` overloads as C++ text

The three overloads have the same body, written against different parameter types. What
follows records which of the operations that body uses exist for each type. -/

/-- The C++ types the overloads mention. -/
inductive CxxType where
  | cls (c : ClassId)
  | shared_ptr (t : CxxType)
  | weak_ptr (t : CxxType)
  | LazyWrap (t : CxxType)
  deriving DecidableEq, Repr

/-- Whether `not e` / `if (e)` is well-formed for an operand of this type, that is,
whether the type converts to `bool` in context: `std::shared_ptr` has
`explicit operator bool`; `std::weak_ptr` and the class `LazyWrap` declare no
conversion. -/
def CxxType.operator_bool : CxxType → Bool
  | CxxType.shared_ptr _ => true
  | _ => false

/-- Type of `e.operator->()`, when the type has one: only `std::shared_ptr` has. -/
def CxxType.operator_arrow : CxxType → Option CxxType
  | CxxType.shared_ptr t => some t
  | _ => none

/-- Type of the member call `getLazybones()` on an object of this type: `LazyWrap<T>`
returns `T`. -/
def CxxType.getLazybones : CxxType → Option CxxType
  | CxxType.LazyWrap t => some t
  | _ => none

/-- Type of the member call `shared_from_this()` on an object of this type: a class
enabled for it returns `std::shared_ptr` to itself. -/
def CxxType.shared_from_this : CxxType → Option CxxType
  | CxxType.cls c => some (CxxType.shared_ptr (CxxType.cls c))
  | _ => none

/-- Whether `return {};` is well-formed for this return type: the smart pointers have a
default constructor, `LazyWrap` has `LazyWrap() = delete;`. -/
def CxxType.returns_empty_braces : CxxType → Bool
  | CxxType.shared_ptr _ => true
  | CxxType.weak_ptr _ => true
  | _ => false

/-- Whether a `std::shared_ptr<Base>` converts implicitly to the lambda return type. -/
def CxxType.from_shared_ptr (Base : ClassId) : CxxType → Bool
  | CxxType.shared_ptr t => decide (t = CxxType.cls Base)
  | CxxType.weak_ptr t => decide (t = CxxType.cls Base)
  | _ => false

/-- Whether the common body of the `lazy_cast` overloads is well-formed when `derive` has
type `P`, the function returns `F` and the lambda returns `R`, expression by expression:

    if (not derive)                                         // P converts to bool
        return {};                                          // F from empty braces
    ... [derive]() -> R {
        if (not derive or not derive->getLazybones())       // P has ->, then getLazybones(),
            return {};                                      //   whose result converts to bool
        return std::static_pointer_cast<Base>(
            derive->getLazybones()->shared_from_this());    // that result has ->, then
    }                                                       //   shared_from_this() -/
def lazy_cast_body_well_formed (P F R : CxxType) (Base : ClassId) : Bool :=
  P.operator_bool
  && F.returns_empty_braces
  && (match P.operator_arrow.bind CxxType.getLazybones with
      | none => false
      | some X =>
        X.operator_bool
        && R.returns_empty_braces
        && (match X.operator_arrow.bind CxxType.shared_from_this with
            | none => false
            | some _ => R.from_shared_ptr Base))

/-- Parameter type, return type and lambda return type of the overload on
`std::shared_ptr<LazyWrap<std::shared_ptr<Derive>>>`. -/
def overload_shared (Derive Base : ClassId) : CxxType × CxxType × CxxType :=
  (CxxType.shared_ptr (CxxType.LazyWrap (CxxType.shared_ptr (CxxType.cls Derive))),
   CxxType.shared_ptr (CxxType.LazyWrap (CxxType.shared_ptr (CxxType.cls Base))),
   CxxType.shared_ptr (CxxType.cls Base))

/-- Parameter type, return type and lambda return type of the overload on
`std::shared_ptr<LazyWrap<std::weak_ptr<Derive>>>`. -/
def overload_weak (Derive Base : ClassId) : CxxType × CxxType × CxxType :=
  (CxxType.shared_ptr (CxxType.LazyWrap (CxxType.weak_ptr (CxxType.cls Derive))),
   CxxType.shared_ptr (CxxType.LazyWrap (CxxType.weak_ptr (CxxType.cls Base))),
   CxxType.weak_ptr (CxxType.cls Base))

/-- Parameter type, return type and lambda return type of the overload on the value
`LazyWrap<std::shared_ptr<Derive>>`. -/
def overload_value (Derive Base : ClassId) : CxxType × CxxType × CxxType :=
  (CxxType.LazyWrap (CxxType.shared_ptr (CxxType.cls Derive)),
   CxxType.LazyWrap (CxxType.shared_ptr (CxxType.cls Base)),
   CxxType.shared_ptr (CxxType.cls Base))

/-- Whether an overload, given by its three types, is well-formed. -/
def overload_well_formed (o : CxxType × CxxType × CxxType) (Base : ClassId) : Bool :=
  lazy_cast_body_well_formed o.1 o.2.1 o.2.2 Base

/-! ## The accessors of the mixin as C++ text

The bodies of `lazy_from_this()` and `lazy_from_this<BaseType>()`, with the types their
expressions have in the class template as declared. -/

/-- What stands between the angle brackets of `std::make_shared<...>`: a type, or the
name of an alias template without arguments, as `_TypedLazyWrap` in `lazy_from_this()`. -/
inductive TemplateArgument where
  | type (t : CxxType)
  | alias_template_name
  deriving DecidableEq, Repr

/-- Implicit conversion between the types that occur here: a type converts to itself, and
`std::shared_ptr<T>` converts to `std::weak_ptr<T>`. A smart pointer to a `LazyWrap<A>`
does not convert to one to a `LazyWrap<B>` for another `B`, a smart pointer to a wrapper
is not a wrapper, and a `std::shared_ptr<Type>` is not a `Type`. -/
def CxxType.converts_to (a b : CxxType) : Bool :=
  decide (a = b) ||
    (match a, b with
     | CxxType.shared_ptr x, CxxType.weak_ptr y => decide (x = y)
     | _, _ => false)

/-- Type of `std::make_shared<A>(getter)` for a `getter` of type `std::function<Y()>`,
when the call is well-formed: `A` has to be a type, and `LazyWrap<X>`, whose constructor
takes a `std::function<X()>`, is built from the getter only when `Y` converts to `X`. -/
def make_shared_type (A : TemplateArgument) (Y : CxxType) : Option CxxType :=
  match A with
  | TemplateArgument.alias_template_name => none
  | TemplateArgument.type (CxxType.LazyWrap X) =>
    if Y.converts_to X then some (CxxType.shared_ptr (CxxType.LazyWrap X)) else none
  | TemplateArgument.type _ => none

/-- Declared type of the member `_cachedLazyWrap` and return type of `lazy_from_this()`:
`_TypedLazyWrapPtr<Type>`, that is `std::shared_ptr<LazyWrap<Type>>`. -/
def cached_slot_type (T : ClassId) : CxxType :=
  CxxType.shared_ptr (CxxType.LazyWrap (CxxType.cls T))

/-- Result type of the member `_lazybonesGetter`, a
`std::function<std::shared_ptr<Type>()>`. -/
def getter_result_type (T : ClassId) : CxxType :=
  CxxType.shared_ptr (CxxType.cls T)

/-- Whether the body of `lazy_from_this()` is well-formed when `A` stands between the
angle brackets of `std::make_shared`, expression by expression:

    if (not _cachedLazyWrap)                                  // the slot converts to bool
        _cachedLazyWrap = std::make_shared<A>(_lazybonesGetter);  // the call is well-formed
                                                              //   and its result converts
    return _cachedLazyWrap;                                   //   to the type of the slot -/
def lazy_from_this_body_well_formed (A : TemplateArgument) (T : ClassId) : Bool :=
  (cached_slot_type T).operator_bool
  && (match make_shared_type A (getter_result_type T) with
      | none => false
      | some made => made.converts_to (cached_slot_type T))

/-- Whether `lazy_from_this()` is well-formed as written, with the alias template
`_TypedLazyWrap` between the angle brackets. -/
def lazy_from_this_well_formed (T : ClassId) : Bool :=
  lazy_from_this_body_well_formed TemplateArgument.alias_template_name T

/-- Whether the call `lazy_cast<Derive, Base>(e)` has a viable overload for an argument
`e` of type `arg`: the argument has to convert to the parameter type of one of the three
overloads. -/
def lazy_cast_accepts (Derive Base : ClassId) (arg : CxxType) : Bool :=
  arg.converts_to (overload_shared Derive Base).1
  || arg.converts_to (overload_weak Derive Base).1
  || arg.converts_to (overload_value Derive Base).1

/-- Declared return type of `lazy_from_this<BaseType>()`: `_TypedLazyWrapPtr<BaseType>`,
that is `std::shared_ptr<LazyWrap<BaseType>>`. -/
def BaseType_return_type (BaseType : ClassId) : CxxType :=
  CxxType.shared_ptr (CxxType.LazyWrap (CxxType.cls BaseType))

/-- Whether the body of `lazy_from_this<BaseType>()` is well-formed:

    return lazy_cast<Type, BaseType>(this->lazy_from_this());

The member `lazy_from_this()` is instantiated, its declared result type is the argument
of `lazy_cast`, and what the owning overload returns is converted to the declared return
type. -/
def lazy_from_this_BaseType_well_formed (T BaseType : ClassId) : Bool :=
  lazy_from_this_well_formed T
  && lazy_cast_accepts T BaseType (cached_slot_type T)
  && (overload_shared T BaseType).2.1.converts_to (BaseType_return_type BaseType)

end utils.lazy

namespace utils

/-! ## Bytes and the object representation of unsigned integers -/

/-- A `uint8_t`. -/
abbrev Byte := Fin 256

/-- Byte order in which the platform stores an integer. -/
inductive Endian where
  | little
  | big
  deriving DecidableEq, Repr

/-- The `w` low-order base-256 digits of `x`, least significant first. -/
def leBytes : Nat → Nat → List Byte
  | 0, _ => []
  | w + 1, x => ⟨x % 256, Nat.mod_lt x (by decide)⟩ :: leBytes w (x / 256)

/-- The number whose base-256 digits, least significant first, are `bs`. -/
def leValue : List Byte → Nat
  | [] => 0
  | b :: bs => b.val + 256 * leValue bs

/-- Object representation of the `w`-byte unsigned integer `x` (taken modulo `256 ^ w`):
its bytes in memory order. -/
def toBytes (e : Endian) (w : Nat) (x : Nat) : List Byte :=
  match e with
  | Endian.little => leBytes w x
  | Endian.big => (leBytes w x).reverse

/-- Value of the unsigned integer whose object representation is `bs`. -/
def fromBytes (e : Endian) (bs : List Byte) : Nat :=
  match e with
  | Endian.little => leValue bs
  | Endian.big => leValue bs.reverse

/-! ## `swapEndian` (`SwapEndian.hpp`) -/

/-- The element the reverse iterator `bytes.rbegin() + i` designates. -/
def rbegin_at (bytes : List Byte) (i : Nat) : Byte :=
  bytes.getD (bytes.length - 1 - i) 0

/-- The call `std::copy(source.rbegin(), source.rend(), destination.begin())`: for each
position `j` of the reverse range in turn, `destination[j] = *(source.rbegin() + j)`. -/
def std_copy_reversed (source destination : List Byte) : List Byte :=
  (List.range source.length).foldl (fun d j => d.set j (rbegin_at source j)) destination

/-- The function `swapEndian`, on the object representation of its argument (the member
`bytes` of the union after `source.value = value`):

    std::copy(source.bytes.rbegin(), source.bytes.rend(), destination.bytes.begin());
    return destination.value;

The array `destination.bytes` has `sizeof(Type)` elements and starts out uninitialised
(zeros here); every one of them is written by the copy. -/
def swapEndian (source : List Byte) : List Byte :=
  std_copy_reversed source (List.replicate source.length 0)

/-- The instance `swapEndian<T>` for a `w`-byte unsigned integer type `T`, on values. -/
def swapEndianUInt (e : Endian) (w : Nat) (value : Nat) : Nat :=
  fromBytes e (swapEndian (toBytes e w value))

/-! ## `useBytesAs` (`UseBytesAs.hpp`) -/

/-- The call `std::memcpy(&result, data + start, n)` on the byte buffer `data`, as the
bytes written to `result`: undefined behaviour (`none`) when the source range leaves the
buffer. -/
def memcpy_from (data : List Byte) (start n : Nat) : Option (List Byte) :=
  if start + n ≤ data.length then some ((data.drop start).take n) else none

/-- The function `useBytesAs<OutputType>(container, offset)`, as the object representation
of the result:

    OutputType result;
    std::memcpy(&result, container.data() + offset * sizeof(InputType), sizeof(result));
    return result;

`data` is the storage of the container in bytes. `container.data()` has type
`const InputType*`, so adding `offset * sizeof(InputType)` to it advances by that many
elements, each `sizeof(InputType)` bytes wide. -/
def useBytesAs (sizeofInput sizeofOutput : Nat) (data : List Byte) (offset : Nat) :
    Option (List Byte) :=
  memcpy_from data ((offset * sizeofInput) * sizeofInput) sizeofOutput

/-- The instance of `useBytesAs` for a `w`-byte unsigned integer output type, on values. -/
def useBytesAsUInt (e : Endian) (sizeofInput w : Nat) (data : List Byte) (offset : Nat) :
    Option Nat :=
  (useBytesAs sizeofInput w data offset).map (fromBytes e)

/-- The little-endian reading of `w` bytes of `b` from position `k`: the sum over `i < w`
of `b[k + i] * 256 ^ i`. -/
def spec_littleEndianSum (b : List Byte) (k w : Nat) : Nat :=
  ((List.range w).map (fun i => (b.getD (k + i) 0).val * 256 ^ i)).sum

end utils

namespace utils.lazy

/-! ## Theorems -/

theorem nthResult_succ {σ ρ : Type} (f : σ → ρ × σ) (i : Nat) (s : σ) :
    nthResult f (i + 1) s = nthResult f i (f s).2 := by
  simp [nthResult, stateBefore, Function.iterate_succ_apply]

theorem stateBefore_succ {σ ρ : Type} (f : σ → ρ × σ) (i : Nat) (s : σ) :
    stateBefore f (i + 1) s = stateBefore f i (f s).2 := by
  simp [stateBefore, Function.iterate_succ_apply]

/-- C1: for every producer `f`, every number `n` of calls and every start state, `n` calls
of `getLazybones()` on `LazyWrap(f)` invoke `f` exactly `n` times (the ghost counter goes
from `c` to `c + n`), the `i`-th call returns the result of the `i`-th invocation of `f`,
and the state is the one `n` raw invocations of `f` leave; with `n = 2` the counter ends at
`c + 2`, so nothing is memoized. -/
theorem C1_getLazybones_invokes_each_call {σ ρ : Type} (f : σ → ρ × σ) (n : Nat) (s : σ)
    (c : Nat) :
    (callN (LazyWrap.mk (counted f)) n (s, c)).2.2 = c + n
    ∧ (callN (LazyWrap.mk (counted f)) n (s, c)).1
        = (List.range n).map (fun i => nthResult f i s)
    ∧ (callN (LazyWrap.mk (counted f)) n (s, c)).2.1 = stateBefore f n s
    ∧ (callN (LazyWrap.mk (counted f)) 2 (s, c)).2.2 = c + 2 := by
  have main : ∀ (n : Nat) (s : σ) (c : Nat),
      (callN (LazyWrap.mk (counted f)) n (s, c)).2.2 = c + n
      ∧ (callN (LazyWrap.mk (counted f)) n (s, c)).1
          = (List.range n).map (fun i => nthResult f i s)
      ∧ (callN (LazyWrap.mk (counted f)) n (s, c)).2.1 = stateBefore f n s := by
    intro n
    induction n with
    | zero => intro s c; simp [callN, stateBefore]
    | succ k ih =>
      intro s c
      obtain ⟨h1, h2, h3⟩ := ih (f s).2 (c + 1)
      refine ⟨?_, ?_, ?_⟩
      · simp only [callN, LazyWrap.getLazybones, counted]
        rw [h1]; omega
      · simp only [callN, LazyWrap.getLazybones, counted]
        rw [h2, List.range_succ_eq_map]
        simp [nthResult_succ, nthResult, stateBefore, Function.comp_def]
      · simp only [callN, LazyWrap.getLazybones, counted]
        rw [h3, stateBefore_succ]
  exact ⟨(main n s c).1, (main n s c).2.1, (main n s c).2.2, (main 2 s c).1⟩

/-! ### Facts about `lazy_cast` shared by the results below -/

theorem lazy_cast_some {υ : Type} (D B : ClassId) (h : Handle υ) (w : World υ) :
    lazy_cast D B (some h) w
      = (some ⟨w.next, LazyWrap.mk (lazy_cast_lambda D B (some h))⟩, ⟨w.rt, w.next + 1⟩) := by
  simp [lazy_cast, make_shared, LazyWrap.construct]

/-! ### The accessors cannot be instantiated

The results C2 to C6 below, and the accessor parts of C9 and C10, record one defect: the
types declared for the accessors of `enable_lazy_from_this` do not fit their bodies. -/

/-- C2, at the failing input (any class `Type` and a call of `lazy_from_this()`): the
member is ill-formed as written, because `std::make_shared` is given the alias template
`_TypedLazyWrap` where a type is needed. It stays ill-formed with either type a reader
might supply: with `LazyWrap<Type>`, the pointee of the slot, the wrapper cannot be
constructed from the getter, which returns `std::shared_ptr<Type>` and not `Type`; with
`LazyWrap<std::shared_ptr<Type>>`, which the getter can build, the result does not convert
to the slot and return type `std::shared_ptr<LazyWrap<Type>>`. No wrapper is handed out on
which `getLazybones()` could be called. -/
theorem C2_lazy_from_this_ill_formed (T : ClassId) :
    lazy_from_this_well_formed T = false
    ∧ make_shared_type TemplateArgument.alias_template_name (getter_result_type T) = none
    ∧ lazy_from_this_body_well_formed
        (TemplateArgument.type (CxxType.LazyWrap (CxxType.cls T))) T = false
    ∧ lazy_from_this_body_well_formed
        (TemplateArgument.type (CxxType.LazyWrap (getter_result_type T))) T = false := by
  simp [lazy_from_this_well_formed, lazy_from_this_body_well_formed, make_shared_type,
    getter_result_type, cached_slot_type, CxxType.converts_to, CxxType.operator_bool]

/-- C3, at the failing input (any class `Type`, two calls of `lazy_from_this()`): the
constructor leaves the cache slot null; the one statement that assigns the slot is in
`lazy_from_this()`, which is ill-formed; and the slot, a `std::shared_ptr<LazyWrap<Type>>`,
could not hold a wrapper of the getter in any case, since a
`std::shared_ptr<LazyWrap<std::shared_ptr<Type>>>` does not convert to it and a
`LazyWrap<Type>` cannot be made from the getter. No wrapper instance is ever returned, so
there are no two returned instances to compare. -/
theorem C3_cache_slot_cannot_be_filled {υ V : Type} (obj : Object) (T : ClassId) :
    (enable_lazy_from_this.construct obj T : enable_lazy_from_this υ V)._cachedLazyWrap = none
    ∧ lazy_from_this_well_formed T = false
    ∧ (CxxType.shared_ptr (CxxType.LazyWrap (getter_result_type T))).converts_to
        (cached_slot_type T) = false
    ∧ make_shared_type (TemplateArgument.type (CxxType.LazyWrap (CxxType.cls T)))
        (getter_result_type T) = none := by
  refine ⟨rfl, ?_, ?_, ?_⟩ <;>
    simp [lazy_from_this_well_formed, lazy_from_this_body_well_formed, make_shared_type,
      getter_result_type, cached_slot_type, CxxType.converts_to, CxxType.operator_bool]

/-- C4, at the failing input (any classes `Type` and `BaseType`, a call of
`lazy_from_this<BaseType>()`): the member template is ill-formed. It instantiates the
ill-formed `lazy_from_this()`; the argument it passes to `lazy_cast<Type, BaseType>` has
the declared type `std::shared_ptr<LazyWrap<Type>>`, which converts to the parameter type
of none of the three overloads; and what the owning overload returns,
`std::shared_ptr<LazyWrap<std::shared_ptr<BaseType>>>`, does not convert to the declared
return type `std::shared_ptr<LazyWrap<BaseType>>`. There is no `Base`-typed wrapper whose
result could be compared with the `Derived`-typed one. -/
theorem C4_lazy_from_this_BaseType_ill_formed (T BaseType : ClassId) :
    lazy_from_this_BaseType_well_formed T BaseType = false
    ∧ lazy_cast_accepts T BaseType (cached_slot_type T) = false
    ∧ (cached_slot_type T).converts_to (overload_shared T BaseType).1 = false
    ∧ (cached_slot_type T).converts_to (overload_weak T BaseType).1 = false
    ∧ (cached_slot_type T).converts_to (overload_value T BaseType).1 = false
    ∧ (overload_shared T BaseType).2.1.converts_to (BaseType_return_type BaseType)
        = false := by
  simp [lazy_from_this_BaseType_well_formed, lazy_from_this_well_formed,
    lazy_from_this_body_well_formed, make_shared_type, lazy_cast_accepts, cached_slot_type,
    BaseType_return_type, overload_shared, overload_weak, overload_value,
    CxxType.converts_to]

/-- C5, at the failing input (any classes `Type` and `BaseType`, a host not yet under
shared ownership): neither accessor can be instantiated, so neither returns a wrapper that
could be evaluated later, whatever the ownership state at the time of the call. -/
theorem C5_no_accessor_hands_out_a_wrapper (T BaseType : ClassId) :
    lazy_from_this_well_formed T = false
    ∧ lazy_from_this_BaseType_well_formed T BaseType = false := by
  simp [lazy_from_this_BaseType_well_formed, lazy_from_this_well_formed,
    lazy_from_this_body_well_formed, make_shared_type]

/-- C6, at the failing input (any class `Type`, a host under no shared ownership):
`lazy_from_this()` does not succeed, since the statement that would make the wrapper has
no well-formed `std::make_shared` call in it, so there is no resulting wrapper to yield
any outcome. -/
theorem C6_lazy_from_this_does_not_succeed (T : ClassId) :
    make_shared_type TemplateArgument.alias_template_name (getter_result_type T) = none
    ∧ lazy_from_this_body_well_formed TemplateArgument.alias_template_name T = false
    ∧ lazy_from_this_well_formed T = false := by
  simp [lazy_from_this_well_formed, lazy_from_this_body_well_formed, make_shared_type]

/-- C7, as stated, fails: `lazy_cast` of the null handle returns the null handle, so there
is no wrapper whose `getLazybones()` could return the empty pointer, and calling
`getLazybones()` through the returned handle is a null dereference. -/
theorem C7_null_source_counterexample :
    (lazy_cast exDerived exBase (none : WrapPtr Unit) exOwned).1 = none
    ∧ ¬ (∃ h : Handle Unit,
          (lazy_cast exDerived exBase (none : WrapPtr Unit) exOwned).1 = some h
          ∧ (h.obj.getLazybones exOwned.rt).1 = Outcome.value (SharedPtr.null exBase))
    ∧ (deref_getLazybones (lazy_cast exDerived exBase (none : WrapPtr Unit) exOwned).1
          exOwned.rt).1 = Outcome.undefined
    ∧ (deref_getLazybones (lazy_cast exDerived exBase (none : WrapPtr Unit) exOwned).1
          exOwned.rt).1 ≠ Outcome.value (SharedPtr.null exBase) := by
  refine ⟨rfl, ?_, rfl, by decide⟩
  rintro ⟨h, hh, _⟩
  cases hh

/-- C7, amended: for the null source handle `lazy_cast` does not fail, allocates nothing,
leaves the program state unchanged and returns the null handle; no wrapper exists, and
`getLazybones()` through the returned handle is a null dereference. -/
theorem C7_null_source_yields_null_handle {υ : Type} (D B : ClassId) (w : World υ) :
    lazy_cast D B (none : WrapPtr υ) w = (none, w)
    ∧ deref_getLazybones (lazy_cast D B (none : WrapPtr υ) w).1 w.rt
        = (Outcome.undefined, w.rt) := by
  simp [lazy_cast, deref_getLazybones]

/-- C8, as stated, fails: the example source wrapper is non-null and its producer returns
the same present pointer to object 7 on every call, yet in a runtime state where object 7
is not under shared ownership the cast wrapper ends in `std::bad_weak_ptr`, raised by the
`shared_from_this()` the cast lambda calls on the target, and not in the upcast pointer. -/
theorem C8_cast_counterexample :
    (∀ rt : Runtime Unit,
        exSource.obj.getLazybones rt = (Outcome.value ⟨exDerived, some 7⟩, rt))
    ∧ (deref_getLazybones (lazy_cast exDerived exBase (some exSource) exUnowned).1
          exUnowned.rt).1 = Outcome.bad_weak_ptr
    ∧ (deref_getLazybones (lazy_cast exDerived exBase (some exSource) exUnowned).1
          exUnowned.rt).1
        ≠ spec_upcast exBase (exSource.obj.getLazybones exUnowned.rt).1 := by
  refine ⟨fun _ => rfl, by decide, by decide⟩

/-- C8, amended: for every non-null source wrapper whose producer yields the same outcome
`r` on every call, `lazy_cast<D, B>` returns a non-null wrapper, and one `getLazybones()`
on it yields the upcast of `r` (the empty `B` pointer for an empty source result, the
`B`-typed pointer to the same object for a present one, the same failure for a failure)
provided the target of a present source result is under shared ownership once the source
has been evaluated twice; when that target is not under shared ownership the evaluation
ends in `std::bad_weak_ptr`. -/
theorem C8_cast_of_deterministic_source {υ : Type} (D B : ClassId) (h : Handle υ)
    (r : Outcome SharedPtr) (hdet : ∀ rt : Runtime υ, (h.obj.getLazybones rt).1 = r)
    (w : World υ) (rt : Runtime υ) :
    (lazy_cast D B (some h) w).1.isSome = true
    ∧ ((∀ p o, r = Outcome.value p → p.target = some o →
          o ∈ (h.obj.getLazybones (h.obj.getLazybones rt).2).2.managed) →
        (deref_getLazybones (lazy_cast D B (some h) w).1 rt).1 = spec_upcast B r)
    ∧ (∀ p o, r = Outcome.value p → p.target = some o →
          o ∉ (h.obj.getLazybones (h.obj.getLazybones rt).2).2.managed →
        (deref_getLazybones (lazy_cast D B (some h) w).1 rt).1 = Outcome.bad_weak_ptr) := by
  have e1 := hdet rt
  have e2 := hdet (h.obj.getLazybones rt).2
  simp only [lazy_cast_some, deref_getLazybones, LazyWrap.getLazybones] at *
  unfold lazy_cast_lambda
  simp only [deref_getLazybones, LazyWrap.getLazybones]
  rcases hA : h.obj._lazybonesGetter rt with ⟨r1, rt1⟩
  rw [hA] at e1 e2
  simp only at e1 e2
  rcases hB : h.obj._lazybonesGetter rt1 with ⟨r2, rt2⟩
  rw [hB] at e2
  simp only at e2
  subst e1
  subst e2
  refine ⟨rfl, ?_, ?_⟩
  · intro hman
    cases r2 with
    | bad_weak_ptr => simp [spec_upcast]
    | undefined => simp [spec_upcast]
    | value p =>
      cases ht : p.target with
      | none => simp [spec_upcast, SharedPtr.toBool, ht, static_pointer_cast, SharedPtr.null]
      | some o =>
        have hm : o ∈ rt2.managed := hman p o rfl ht
        simp [spec_upcast, SharedPtr.toBool, ht, static_pointer_cast, shared_from_this, hm, hB]
  · intro p o hr ht hm
    cases hr
    have hm2 : o ∉ rt2.managed := hm
    simp [SharedPtr.toBool, ht, shared_from_this, hm2, hB]

/-- C8 at the example source, whose producer always returns a pointer to object 7, in the
world where object 7 is under shared ownership: the cast wrapper returns the `Base`-typed
pointer to object 7. -/
theorem C8_cast_of_deterministic_source_witness :
    (deref_getLazybones (lazy_cast exDerived exBase (some exSource) exOwned).1 exOwned.rt).1
      = Outcome.value ⟨exBase, some 7⟩ :=
  (C8_cast_of_deterministic_source exDerived exBase exSource
    (Outcome.value ⟨exDerived, some 7⟩) (fun _ => rfl) exOwned exOwned.rt).2.1
    (by intro p o hp ho; cases hp; cases ho; decide)

/-- C10, at the failing input (any classes `Type` and `BaseType`, two calls of
`lazy_from_this<BaseType>()`): the member template is ill-formed, so no call returns a
wrapper. The operation it was written to go through does build a fresh wrapper on every
call: two successive calls of `lazy_cast` on one non-null source return handles to two
different allocations, neither of which the allocator had handed out before. -/
theorem C10_base_accessor_ill_formed_cast_fresh {υ : Type} (T BaseType : ClassId) :
    lazy_from_this_BaseType_well_formed T BaseType = false
    ∧ (∀ (h : Handle υ) (w : World υ),
        ∃ h1 h2 : Handle υ,
          (lazy_cast T BaseType (some h) w).1 = some h1
          ∧ (lazy_cast T BaseType (some h) (lazy_cast T BaseType (some h) w).2).1 = some h2
          ∧ h1.addr ≠ h2.addr
          ∧ w.next ≤ h1.addr
          ∧ (lazy_cast T BaseType (some h) w).2.next ≤ h2.addr) := by
  constructor
  · simp [lazy_from_this_BaseType_well_formed, lazy_from_this_well_formed,
      lazy_from_this_body_well_formed, make_shared_type]
  · intro h w
    rw [lazy_cast_some, lazy_cast_some]
    exact ⟨_, _, rfl, rfl, Nat.ne_of_lt (Nat.lt_succ_self _), Nat.le_refl _, Nat.le_refl _⟩

/-! ### One evaluation of a cast wrapper -/

theorem cast_lambda_present {υ : Type} (D B : ClassId) (h : Handle υ) (rt : Runtime υ)
    (T1 T2 : ClassId) (o1 o2 : ObjId)
    (h1 : (h.obj.getLazybones rt).1 = Outcome.value ⟨T1, some o1⟩)
    (h2 : (h.obj.getLazybones (h.obj.getLazybones rt).2).1 = Outcome.value ⟨T2, some o2⟩)
    (hm : o2 ∈ (h.obj.getLazybones (h.obj.getLazybones rt).2).2.managed) :
    lazy_cast_lambda D B (some h) rt
      = (Outcome.value ⟨B, some o2⟩, (h.obj.getLazybones (h.obj.getLazybones rt).2).2) := by
  unfold lazy_cast_lambda
  simp only [deref_getLazybones]
  rcases hA : h.obj.getLazybones rt with ⟨r1, rt1⟩
  rw [hA] at h1 h2 hm
  simp only at h1 h2 hm
  rcases hB : h.obj.getLazybones rt1 with ⟨r2, rt2⟩
  rw [hB] at h2 hm
  simp only at h2 hm
  subst h1
  subst h2
  simp [SharedPtr.toBool, hB, shared_from_this, hm, static_pointer_cast]

theorem cast_lambda_absent {υ : Type} (D B : ClassId) (h : Handle υ) (rt : Runtime υ)
    (T : ClassId) (h1 : (h.obj.getLazybones rt).1 = Outcome.value ⟨T, none⟩) :
    lazy_cast_lambda D B (some h) rt
      = (Outcome.value (SharedPtr.null B), (h.obj.getLazybones rt).2) := by
  unfold lazy_cast_lambda
  simp only [deref_getLazybones]
  rcases hA : h.obj.getLazybones rt with ⟨r1, rt1⟩
  rw [hA] at h1
  simp only at h1
  subst h1
  simp [SharedPtr.toBool]

theorem cast_chain_succ {υ : Type} (tys : Nat → ClassId) (k : Nat) (src : WrapPtr υ)
    (w : World υ) (h : Handle υ) (hk : (cast_chain tys k src w).1 = some h) :
    (cast_chain tys (k + 1) src w).1
      = some ⟨(cast_chain tys k src w).2.next,
          LazyWrap.mk (lazy_cast_lambda (tys k) (tys (k + 1)) (some h))⟩ := by
  simp only [cast_chain]
  rw [hk, lazy_cast_some]

/-- Over an instrumented source that, in every state satisfying `Inv`, yields a present
pointer whose target is under shared ownership and re-establishes `Inv`, the chain of `k`
casts is a wrapper with the same property, and one evaluation of it costs `2 ^ k`
invocations of the source. -/
theorem cast_chain_present {υ : Type} (f : Producer υ) (Inv : Runtime υ → Prop)
    (hp : ∀ rt, Inv rt → ∃ T o, (f rt).1 = Outcome.value ⟨T, some o⟩
      ∧ o ∈ (f rt).2.managed ∧ Inv (f rt).2)
    (tys : Nat → ClassId) (a : Addr) (w : World (υ × Nat)) (k : Nat) :
    ∃ h, (cast_chain tys k (some ⟨a, LazyWrap.mk (ticked f)⟩) w).1 = some h
      ∧ ∀ rt : Runtime (υ × Nat), Inv rt.forget →
          ∃ T o, (h.obj.getLazybones rt).1 = Outcome.value ⟨T, some o⟩
          ∧ o ∈ (h.obj.getLazybones rt).2.managed
          ∧ Inv (h.obj.getLazybones rt).2.forget
          ∧ (h.obj.getLazybones rt).2.user.2 = rt.user.2 + 2 ^ k := by
  induction k with
  | zero =>
    refine ⟨_, rfl, ?_⟩
    intro rt hrt
    obtain ⟨T, o, e1, e2, e3⟩ := hp rt.forget hrt
    exact ⟨T, o, e1, e2, e3, rfl⟩
  | succ k ih =>
    obtain ⟨h, hk, hprop⟩ := ih
    refine ⟨_, cast_chain_succ tys k _ w h hk, ?_⟩
    intro rt hrt
    obtain ⟨T1, o1, e1, _, i1, c1⟩ := hprop rt hrt
    obtain ⟨T2, o2, e2, m2, i2, c2⟩ := hprop (h.obj.getLazybones rt).2 i1
    have hev := cast_lambda_present (tys k) (tys (k + 1)) h rt T1 T2 o1 o2 e1 e2 m2
    refine ⟨tys (k + 1), o2, ?_, ?_, ?_, ?_⟩
    · simp only [LazyWrap.getLazybones]
      rw [hev]
    · simp only [LazyWrap.getLazybones]
      rw [hev]
      exact m2
    · simp only [LazyWrap.getLazybones]
      rw [hev]
      exact i2
    · simp only [LazyWrap.getLazybones]
      rw [hev]
      simp only []
      rw [c2, c1, pow_succ]
      omega

/-- Over an instrumented source that always yields the empty pointer, the chain of `k`
casts is a wrapper that always yields the empty pointer, and one evaluation of it costs
one invocation of the source. -/
theorem cast_chain_absent {υ : Type} (f : Producer υ)
    (ha : ∀ rt, ∃ T, (f rt).1 = Outcome.value ⟨T, none⟩)
    (tys : Nat → ClassId) (a : Addr) (w : World (υ × Nat)) (k : Nat) :
    ∃ h, (cast_chain tys k (some ⟨a, LazyWrap.mk (ticked f)⟩) w).1 = some h
      ∧ ∀ rt, ∃ T, (h.obj.getLazybones rt).1 = Outcome.value ⟨T, none⟩
          ∧ (h.obj.getLazybones rt).2.user.2 = rt.user.2 + 1 := by
  induction k with
  | zero =>
    refine ⟨_, rfl, ?_⟩
    intro rt
    obtain ⟨T, e1⟩ := ha rt.forget
    exact ⟨T, e1, rfl⟩
  | succ k ih =>
    obtain ⟨h, hk, hprop⟩ := ih
    refine ⟨_, cast_chain_succ tys k _ w h hk, ?_⟩
    intro rt
    obtain ⟨T1, e1, c1⟩ := hprop rt
    have hev := cast_lambda_absent (tys k) (tys (k + 1)) h rt T1 e1
    refine ⟨tys (k + 1), ?_, ?_⟩
    · simp only [LazyWrap.getLazybones]
      rw [hev]
      rfl
    · simp only [LazyWrap.getLazybones]
      rw [hev]
      exact c1

/-- C14, at the failing input: for all classes `Derive` and `Base`, the body shared by the
three `lazy_cast` overloads is well-formed for the overload on
`std::shared_ptr<LazyWrap<std::shared_ptr<Derive>>>` and ill-formed for the other two. The
weak overload applies `not` and `->` to a `std::weak_ptr`, which has neither a conversion
to `bool` nor `operator->`; the value overload applies `not` and `->` to a `LazyWrap` and
returns `{}` for a class whose default constructor is deleted. Neither can be
instantiated, so there is no result to compare with the owning overload. -/
theorem C14_weak_and_value_overloads_ill_formed (Derive Base : ClassId) :
    overload_well_formed (overload_shared Derive Base) Base = true
    ∧ overload_well_formed (overload_weak Derive Base) Base = false
    ∧ overload_well_formed (overload_value Derive Base) Base = false
    ∧ (CxxType.weak_ptr (CxxType.cls Derive)).operator_bool = false
    ∧ (CxxType.weak_ptr (CxxType.cls Derive)).operator_arrow = none
    ∧ (CxxType.LazyWrap (CxxType.shared_ptr (CxxType.cls Derive))).operator_bool = false
    ∧ (CxxType.LazyWrap (CxxType.shared_ptr (CxxType.cls Derive))).operator_arrow = none
    ∧ (CxxType.LazyWrap (CxxType.shared_ptr (CxxType.cls Base))).returns_empty_braces
        = false := by
  simp [overload_well_formed, lazy_cast_body_well_formed, overload_shared, overload_weak,
    overload_value, CxxType.operator_bool, CxxType.operator_arrow, CxxType.getLazybones,
    CxxType.shared_from_this, CxxType.returns_empty_braces, CxxType.from_shared_ptr]

/-- C15, at the failing input: the source wrapper `exFlip` is non-null and its producer
returns a present pointer on its first call and the empty pointer on its second. One
`getLazybones()` on `lazy_cast(exFlip)` evaluates the source for the presence test
(present), evaluates it again for the value (empty) and calls `shared_from_this()`
through that empty pointer: the outcome is undefined behaviour, neither the empty pointer
nor an upcast pointer. -/
theorem C15_cast_dereferences_second_result :
    (exFlip.obj.getLazybones exFlipState).1 = Outcome.value ⟨exDerived, some 7⟩
    ∧ (exFlip.obj.getLazybones (exFlip.obj.getLazybones exFlipState).2).1
        = Outcome.value (SharedPtr.null exDerived)
    ∧ (deref_getLazybones (lazy_cast exDerived exBase (some exFlip) ⟨exFlipState, 1⟩).1
          exFlipState).1 = Outcome.undefined
    ∧ (deref_getLazybones (lazy_cast exDerived exBase (some exFlip) ⟨exFlipState, 1⟩).1
          exFlipState).1 ≠ Outcome.value (SharedPtr.null exBase)
    ∧ (deref_getLazybones (lazy_cast exDerived exBase (some exFlip) ⟨exFlipState, 1⟩).1
          exFlipState).1 ≠ Outcome.value ⟨exBase, some 7⟩ := by
  refine ⟨by decide, by decide, by decide, by decide, by decide⟩

/-- C16, as stated, fails: the example source always yields a present pointer to object 7,
yet in a runtime state where object 7 is not under shared ownership one `getLazybones()`
on the chain of two casts invokes it twice, not `2 ^ 2` times: the inner cast raises
`std::bad_weak_ptr` after its two evaluations and the outer cast never gets to its
second one. -/
theorem C16_cast_chain_counterexample :
    (∀ rt : Runtime Unit, (exAlwaysPresent rt).1 = Outcome.value ⟨exDerived, some 7⟩)
    ∧ (deref_getLazybones
          (cast_chain exTys 2 (some ⟨0, LazyWrap.mk (ticked exAlwaysPresent)⟩)
            ⟨exCountUnowned, 1⟩).1 exCountUnowned).1 = Outcome.bad_weak_ptr
    ∧ (deref_getLazybones
          (cast_chain exTys 2 (some ⟨0, LazyWrap.mk (ticked exAlwaysPresent)⟩)
            ⟨exCountUnowned, 1⟩).1 exCountUnowned).2.user.2 = 2
    ∧ (deref_getLazybones
          (cast_chain exTys 2 (some ⟨0, LazyWrap.mk (ticked exAlwaysPresent)⟩)
            ⟨exCountUnowned, 1⟩).1 exCountUnowned).2.user.2
        ≠ exCountUnowned.user.2 + 2 ^ 2 := by
  refine ⟨fun _ => rfl, by decide, by decide, by decide⟩

/-- C16, amended: for every `k`, every chain of `k` casts over a wrapper of an instrumented
base producer `f`, and every runtime state `rt`: if in every state satisfying an invariant
`Inv` the producer yields a present pointer whose target is under shared ownership and
re-establishes `Inv`, and `rt` satisfies `Inv`, then one `getLazybones()` on the chain
invokes `f` exactly `2 ^ k` times; if `f` always yields the empty pointer, it is invoked
exactly once. -/
theorem C16_cast_chain_invocations {υ : Type} (f : Producer υ) (Inv : Runtime υ → Prop)
    (tys : Nat → ClassId) (a : Addr) (w : World (υ × Nat)) (k : Nat)
    (rt : Runtime (υ × Nat)) :
    ((∀ s, Inv s → ∃ T o, (f s).1 = Outcome.value ⟨T, some o⟩
          ∧ o ∈ (f s).2.managed ∧ Inv (f s).2) →
      Inv rt.forget →
      (deref_getLazybones (cast_chain tys k (some ⟨a, LazyWrap.mk (ticked f)⟩) w).1
          rt).2.user.2 = rt.user.2 + 2 ^ k)
    ∧ ((∀ s, ∃ T, (f s).1 = Outcome.value ⟨T, none⟩) →
      (deref_getLazybones (cast_chain tys k (some ⟨a, LazyWrap.mk (ticked f)⟩) w).1
          rt).2.user.2 = rt.user.2 + 1) := by
  constructor
  · intro hp hrt
    obtain ⟨h, hk, hprop⟩ := cast_chain_present f Inv hp tys a w k
    obtain ⟨_, _, _, _, _, c⟩ := hprop rt hrt
    rw [hk]
    exact c
  · intro ha
    obtain ⟨h, hk, hprop⟩ := cast_chain_absent f ha tys a w k
    obtain ⟨_, _, c⟩ := hprop rt
    rw [hk]
    exact c

/-- C16 at the example sources with the object at address 7 under shared ownership: one
evaluation of a chain of three casts invokes the always-present source eight times and
the always-empty source once. -/
theorem C16_cast_chain_invocations_witness :
    (deref_getLazybones
        (cast_chain exTys 3 (some ⟨0, LazyWrap.mk (ticked exAlwaysPresent)⟩)
          ⟨exCountOwned, 1⟩).1 exCountOwned).2.user.2 = 8
    ∧ (deref_getLazybones
        (cast_chain exTys 3 (some ⟨0, LazyWrap.mk (ticked exAlwaysAbsent)⟩)
          ⟨exCountOwned, 1⟩).1 exCountOwned).2.user.2 = 1 :=
  ⟨(C16_cast_chain_invocations exAlwaysPresent (fun s => 7 ∈ s.managed) exTys 0
      ⟨exCountOwned, 1⟩ 3 exCountOwned).1
      (fun s hs => ⟨exDerived, 7, rfl, hs, hs⟩) (by decide),
   (C16_cast_chain_invocations exAlwaysAbsent (fun _ => True) exTys 0
      ⟨exCountOwned, 1⟩ 3 exCountOwned).2 (fun _ => ⟨exDerived, rfl⟩)⟩

end utils.lazy

namespace utils

/-! ### The reversed copy -/

/-- After the first `m` steps of the copy, the positions below `m` hold the reversed
source and the others still hold what the destination had. -/
theorem std_copy_prefix (source : List Byte) (m : Nat) (d : List Byte) :
    ((List.range m).foldl (fun d j => d.set j (rbegin_at source j)) d).length = d.length
    ∧ ∀ j, ((List.range m).foldl (fun d j => d.set j (rbegin_at source j)) d)[j]?
        = if j < m then (if j < d.length then some (rbegin_at source j) else none)
          else d[j]? := by
  induction m with
  | zero => simp
  | succ k ih =>
    obtain ⟨hl, hg⟩ := ih
    rw [List.range_succ, List.foldl_append]
    simp only [List.foldl_cons, List.foldl_nil, List.length_set]
    refine ⟨hl, ?_⟩
    intro j
    rw [List.getElem?_set, hl, hg j]
    by_cases h1 : k = j
    · subst h1
      simp
    · by_cases h2 : j < k
      · have h3 : j < k + 1 := Nat.lt_succ_of_lt h2
        simp [h1, h2, h3]
      · have h3 : ¬ j < k + 1 := by omega
        simp [h1, h2, h3]

theorem std_copy_reversed_eq (source destination : List Byte)
    (hlen : destination.length = source.length) :
    std_copy_reversed source destination = source.reverse := by
  obtain ⟨hl, hg⟩ := std_copy_prefix source source.length destination
  apply List.ext_getElem?
  intro j
  unfold std_copy_reversed
  rw [hg j, hlen]
  by_cases h : j < source.length
  · have h2 : source.length - 1 - j < source.length := by omega
    simp [h, List.getElem?_reverse h, rbegin_at, List.getD_eq_getElem?_getD,
      List.getElem?_eq_getElem h2]
  · have h3 : source.reverse.length ≤ j := by simpa using Nat.le_of_not_lt h
    have h4 : destination.length ≤ j := by omega
    simp [h, List.getElem?_eq_none h3, List.getElem?_eq_none h4]

theorem swapEndian_eq_reverse (source : List Byte) : swapEndian source = source.reverse :=
  std_copy_reversed_eq source _ (by simp)

/-! ### Bytes and values -/

theorem leBytes_length (w x : Nat) : (leBytes w x).length = w := by
  induction w generalizing x with
  | zero => rfl
  | succ k ih => simp [leBytes, ih]

theorem leValue_leBytes (w x : Nat) : leValue (leBytes w x) = x % 256 ^ w := by
  induction w generalizing x with
  | zero => simp [leBytes, leValue, Nat.mod_one]
  | succ k ih =>
    simp only [leBytes, leValue, ih]
    rw [pow_succ', Nat.mod_mul]

theorem leBytes_leValue (bs : List Byte) : leBytes bs.length (leValue bs) = bs := by
  induction bs with
  | nil => rfl
  | cons b rest ih =>
    have hb : b.val < 256 := b.isLt
    have h1 : (b.val + 256 * leValue rest) % 256 = b.val := by omega
    have h2 : (b.val + 256 * leValue rest) / 256 = leValue rest := by omega
    simp only [List.length_cons, leBytes, leValue, h2, ih]
    congr 1
    exact Fin.ext h1

theorem toBytes_length (e : Endian) (w x : Nat) : (toBytes e w x).length = w := by
  cases e <;> simp [toBytes, leBytes_length]

theorem fromBytes_toBytes (e : Endian) (w x : Nat) :
    fromBytes e (toBytes e w x) = x % 256 ^ w := by
  cases e <;> simp [toBytes, fromBytes, leValue_leBytes]

theorem toBytes_fromBytes (e : Endian) (bs : List Byte) :
    toBytes e bs.length (fromBytes e bs) = bs := by
  cases e with
  | little => simp [toBytes, fromBytes, leBytes_leValue]
  | big =>
    have h := leBytes_leValue bs.reverse
    simp only [List.length_reverse] at h
    simp [toBytes, fromBytes, h]

theorem toBytes_swapEndianUInt (e : Endian) (w x : Nat) :
    toBytes e w (swapEndianUInt e w x) = (toBytes e w x).reverse := by
  have h := toBytes_fromBytes e (toBytes e w x).reverse
  simp only [List.length_reverse, toBytes_length] at h
  simpa [swapEndianUInt, swapEndian_eq_reverse] using h

/-- C11: `swapEndian` returns a value of the same size whose object representation is the
reverse of the argument: byte `i` of the result is byte `n - 1 - i` of the argument for
every `i < n`. For a `w`-byte unsigned integer this holds of the representations of the
argument and of the returned value, whatever the byte order of the platform, and the
32-bit values `0x12345678` and `0x22224444` are sent to `0x78563412` and `0x44442222`. -/
theorem C11_swapEndian_reverses_bytes (source : List Byte) :
    (swapEndian source).length = source.length
    ∧ swapEndian source = source.reverse
    ∧ (∀ i, i < source.length → (swapEndian source)[i]? = source[source.length - 1 - i]?)
    ∧ (∀ (e : Endian) (w x : Nat) (i : Nat), i < w →
        (toBytes e w (swapEndianUInt e w x))[i]? = (toBytes e w x)[w - 1 - i]?)
    ∧ (∀ e : Endian, swapEndianUInt e 4 0x12345678 = 0x78563412
        ∧ swapEndianUInt e 4 0x22224444 = 0x44442222) := by
  refine ⟨by simp [swapEndian_eq_reverse], swapEndian_eq_reverse source, ?_, ?_, ?_⟩
  · intro i hi
    rw [swapEndian_eq_reverse, List.getElem?_reverse hi]
  · intro e w x i hi
    have hl := toBytes_length e w x
    rw [toBytes_swapEndianUInt, List.getElem?_reverse (by rw [hl]; exact hi), hl]
  · intro e
    cases e <;> exact ⟨by decide, by decide⟩

/-- C11 on the four bytes `78 56 34 12`: byte 0 of the result is byte 3 of the argument. -/
theorem C11_swapEndian_reverses_bytes_witness :
    (swapEndian [0x78, 0x56, 0x34, 0x12])[0]? = ([0x78, 0x56, 0x34, 0x12] : List Byte)[3]? :=
  (C11_swapEndian_reverses_bytes [0x78, 0x56, 0x34, 0x12]).2.2.1 0 (by decide)

/-- C17: `swapEndian` is an involution on object representations of every size and the
identity on one-byte representations; for a `w`-byte unsigned integer value `x`
(`x < 256 ^ w`) swapping twice gives `x` back, and a one-byte value is unchanged, whatever
the byte order of the platform. -/
theorem C17_swapEndian_involution :
    (∀ source : List Byte, swapEndian (swapEndian source) = source)
    ∧ (∀ source : List Byte, source.length = 1 → swapEndian source = source)
    ∧ (∀ (e : Endian) (w x : Nat), x < 256 ^ w →
        swapEndianUInt e w (swapEndianUInt e w x) = x)
    ∧ (∀ (e : Endian) (x : Nat), x < 256 → swapEndianUInt e 1 x = x) := by
  have one : ∀ source : List Byte, source.length = 1 → source.reverse = source := by
    intro source h
    match source, h with
    | [b], _ => rfl
  refine ⟨?_, ?_, ?_, ?_⟩
  · intro source
    simp [swapEndian_eq_reverse]
  · intro source h
    rw [swapEndian_eq_reverse, one source h]
  · intro e w x hx
    have h : swapEndianUInt e w (swapEndianUInt e w x) = fromBytes e (toBytes e w x) := by
      unfold swapEndianUInt
      rw [swapEndian_eq_reverse (toBytes e w (fromBytes e (swapEndian (toBytes e w x))))]
      have h2 := toBytes_swapEndianUInt e w x
      unfold swapEndianUInt at h2
      rw [h2, List.reverse_reverse]
    rw [h, fromBytes_toBytes, Nat.mod_eq_of_lt hx]
  · intro e x hx
    unfold swapEndianUInt
    rw [swapEndian_eq_reverse, one _ (toBytes_length e 1 x), fromBytes_toBytes]
    exact Nat.mod_eq_of_lt (by simpa using hx)

/-- C17 on the 32-bit value `0x12345678` of a little-endian platform and on the one-byte
value `0x7F`. -/
theorem C17_swapEndian_involution_witness :
    swapEndianUInt Endian.little 4 (swapEndianUInt Endian.little 4 0x12345678) = 0x12345678
    ∧ swapEndianUInt Endian.big 1 0x7F = 0x7F :=
  ⟨C17_swapEndian_involution.2.2.1 Endian.little 4 0x12345678 (by decide),
   C17_swapEndian_involution.2.2.2 Endian.big 0x7F (by decide)⟩

/-! ### Reading a buffer -/

theorem leValue_eq_sum (bs : List Byte) :
    leValue bs = ((List.range bs.length).map (fun i => (bs.getD i 0).val * 256 ^ i)).sum := by
  induction bs with
  | nil => rfl
  | cons b rest ih =>
    rw [List.length_cons, List.range_succ_eq_map, List.map_cons, List.sum_cons, List.map_map]
    have hmap : (List.range rest.length).map
          ((fun i => ((b :: rest).getD i 0).val * 256 ^ i) ∘ Nat.succ)
        = (List.range rest.length).map (fun i => 256 * ((rest.getD i 0).val * 256 ^ i)) := by
      apply List.map_congr_left
      intro i _
      simp only [Function.comp, List.getD_cons_succ, pow_succ]
      ring
    rw [hmap, List.sum_map_mul_left, ← ih]
    simp [leValue]

theorem useBytesAs_bytes (w : Nat) (data : List Byte) (k : Nat) (h : k + w ≤ data.length) :
    useBytesAs 1 w data k = some ((data.drop k).take w) := by
  simp [useBytesAs, memcpy_from, h]

theorem take_drop_getD (data : List Byte) (k w i : Nat) (hi : i < w) :
    ((data.drop k).take w).getD i 0 = data.getD (k + i) 0 := by
  simp [List.getD_eq_getElem?_getD, List.getElem?_take, List.getElem?_drop, hi]

/-- C13: for a container of one-byte elements `b`, a `w`-byte unsigned integer output type
and an offset `k` with `k + w ≤ length b`, on a platform that stores integers least
significant byte first, `useBytesAs` returns the sum over `i < w` of `b[k + i] * 256 ^ i`;
the buffer `02 04 0C 05` read at offset 0 gives `0x050C0402` as a 32-bit value and
`0x0402` as a 16-bit value. -/
theorem C13_useBytesAs_little_endian (b : List Byte) (k w : Nat) (h : k + w ≤ b.length) :
    useBytesAsUInt Endian.little 1 w b k = some (spec_littleEndianSum b k w)
    ∧ useBytesAsUInt Endian.little 1 4 [0x02, 0x04, 0x0C, 0x05] 0 = some 0x050C0402
    ∧ useBytesAsUInt Endian.little 1 2 [0x02, 0x04, 0x0C, 0x05] 0 = some 0x0402 := by
  refine ⟨?_, by decide, by decide⟩
  have hlen : ((b.drop k).take w).length = w := by
    simp only [List.length_take, List.length_drop]
    omega
  unfold useBytesAsUInt
  rw [useBytesAs_bytes w b k h]
  simp only [Option.map_some', fromBytes, leValue_eq_sum, hlen, spec_littleEndianSum]
  congr 2
  apply List.map_congr_left
  intro i hi
  rw [take_drop_getD b k w i (List.mem_range.mp hi)]

/-- C13 on the four-byte buffer `02 04 0C 05` read as a 16-bit value at offset 1. -/
theorem C13_useBytesAs_little_endian_witness :
    useBytesAsUInt Endian.little 1 2 [0x02, 0x04, 0x0C, 0x05] 1
      = some (spec_littleEndianSum [0x02, 0x04, 0x0C, 0x05] 1 2)
    ∧ spec_littleEndianSum [0x02, 0x04, 0x0C, 0x05] 1 2 = 0x0C04 :=
  ⟨(C13_useBytesAs_little_endian [0x02, 0x04, 0x0C, 0x05] 1 2 (by decide)).1, by decide⟩

/-- C18: for a buffer `b` of one-byte elements and the unsigned integer output type whose
size is the length of `b`, reading the reversed buffer at offset 0 gives `swapEndian` of
reading `b` at offset 0, whatever the byte order of the platform (both reads succeed); on
a platform that stores integers least significant byte first, `swapEndian` of the read is
the big-endian reading of `b`. -/
theorem C18_useBytesAs_reverse_is_swapEndian (e : Endian) (b : List Byte) :
    useBytesAsUInt e 1 b.length b.reverse 0
      = (useBytesAsUInt e 1 b.length b 0).map (swapEndianUInt e b.length)
    ∧ useBytesAsUInt e 1 b.length b 0 = some (fromBytes e b)
    ∧ (useBytesAsUInt Endian.little 1 b.length b 0).map (swapEndianUInt Endian.little b.length)
      = some (fromBytes Endian.big b) := by
  have hread : ∀ (e : Endian) (c : List Byte), c.length = b.length →
      useBytesAsUInt e 1 b.length c 0 = some (fromBytes e c) := by
    intro e c hc
    unfold useBytesAsUInt
    rw [useBytesAs_bytes b.length c 0 (by omega)]
    simp [← hc]
  have hswap : ∀ e : Endian,
      swapEndianUInt e b.length (fromBytes e b) = fromBytes e b.reverse := by
    intro e
    unfold swapEndianUInt
    rw [toBytes_fromBytes, swapEndian_eq_reverse]
  refine ⟨?_, hread e b rfl, ?_⟩
  · rw [hread e b.reverse (by simp), hread e b rfl, Option.map_some', hswap]
  · rw [hread Endian.little b rfl, Option.map_some', hswap]
    simp [fromBytes]

/-- C12, at the failing input: a container of two-byte elements holding the bytes
`01 02 03 04 05 06 07 08`, a two-byte output type and offset 1. The requested span
(byte position `1 * 2`, two bytes) lies inside the buffer and holds `03 04`; the code
returns `05 06`, the bytes at position `1 * 2 * 2`, because the offset in bytes is added
to a pointer to elements. With the four-byte buffer `01 02 03 04` the same call reads past
the end. In general the read starts at byte `offset * s * s`. -/
theorem C12_useBytesAs_offset_scaled_twice :
    useBytesAs 2 2 [1, 2, 3, 4, 5, 6, 7, 8] 1 = some [5, 6]
    ∧ 1 * 2 + 2 ≤ ([1, 2, 3, 4, 5, 6, 7, 8] : List Byte).length
    ∧ (([1, 2, 3, 4, 5, 6, 7, 8] : List Byte).drop (1 * 2)).take 2 = [3, 4]
    ∧ 1 * 2 + 2 ≤ ([1, 2, 3, 4] : List Byte).length
    ∧ useBytesAs 2 2 [1, 2, 3, 4] 1 = none
    ∧ (∀ (s w : Nat) (data : List Byte) (k : Nat),
        useBytesAs s w data k = memcpy_from data (k * s * s) w) := by
  refine ⟨by decide, by decide, by decide, by decide, by decide, fun _ _ _ _ => rfl⟩

end utils
